import Mathlib

/-!
# Verification of the doggyhole-ws router and client core

A shallow embedding of the TypeScript sources of the `doggyhole-ws`
repository (the main module exporting `DoggyHoleServer` / `DoggyHoleClient`,
`src/errors.ts`, and `src/internalClasses.ts`), with theorems settling the
spec claims about authentication, RPC dispatch and forwarding, event
fan-out, pending-request settlement, reconnection, request ids, and the
event buses.

JavaScript `Map` objects are modelled as insertion-ordered association
lists (lookup finds the first matching key, `set` on a fresh key appends),
`Set` objects as insertion-ordered duplicate-free lists, WebSocket handles
as natural numbers, and payloads as a small JSON value type.
-/

namespace DoggyHole

/-- JSON values, as carried in the `data` fields of frames. Objects keep
their fields in insertion order, matching JavaScript object semantics. -/
inductive Json where
  | null : Json
  | bool (b : Bool) : Json
  | num (n : Int) : Json
  | str (s : String) : Json
  | arr (elems : List Json) : Json
  | obj (fields : List (String × Json)) : Json

/-- Wire frames emitted by the server-side handlers modelled here.
Mirrors the message shapes built in the source (`sendResponse`,
`handleClientRequest`, `broadcastToOthers`). -/
inductive Frame where
  | response (id : String) (success : Bool) (data : Json)
      (error : Option String) (originalFromClient : Option String) : Frame
  | clientRequest (id functionName : String) (data : Json)
      (targetClient fromClient : String) : Frame
  | eventFrame (eventName : String) (data : Json) (fromClient : String) : Frame
  | authSuccess (name : String) : Frame

/-! ## Error messages (src/errors.ts)

The error classes carry the messages that the server serializes into the
`error` field of `response` frames. -/

/-- Message of `HandlerNotFoundError` in src/errors.ts:
`Handler not found: ${functionName}`. -/
def handlerNotFoundMessage (functionName : String) : String :=
  "Handler not found: " ++ functionName

/-- Message of `ClientNotFoundError` in src/errors.ts:
`Client not found: ${clientName}`. -/
def clientNotFoundMessage (clientName : String) : String :=
  "Client not found: " ++ clientName

/-! ## Credential store and authentication (DoggyHoleServer.handleAuth) -/

/-- A record of the server credential store (`clients` map, values are
`ClientInfo { name, token }` from src/types.ts). -/
structure ClientInfo where
  name : String
  token : String
deriving DecidableEq, Repr

/-- `this.clients.get(name)`: first record stored under `name`. -/
def storeGet (clients : List ClientInfo) (name : String) : Option ClientInfo :=
  clients.find? (fun c => c.name == name)

/-- An inbound `auth` frame. The server parses untyped JSON, so `name`
may be absent (`message.name === undefined`). -/
structure AuthMsg where
  name : Option String
  token : String
deriving DecidableEq, Repr

/-- Net effect of processing a first `auth` frame on a connection. -/
structure AuthEffect where
  /-- Name the session gets registered under in `connectedClients`
  (set by the `setupServer` message listener after `handleAuth` returns). -/
  registered : Option String
  /-- Close code passed to `ws.close`, when the transport is closed. -/
  closeCode : Option Nat
  /-- Frames written back to the connecting transport. -/
  framesSent : List Frame

/-- `DoggyHoleServer.handleAuth` together with its caller in
`setupServer`: `clients.get(message.name)` (a lookup with key
`undefined` misses), token equality check; on failure `ws.close(1008,
"Invalid credentials")` and a thrown `AuthenticationError` that skips the
registration step; on success the listener registers the session under
`message.name`. No frame is ever written back on this path. -/
def authStep (clients : List ClientInfo) (msg : AuthMsg) : AuthEffect :=
  let clientInfo : Option ClientInfo :=
    match msg.name with
    | none => none
    | some n => storeGet clients n
  match clientInfo with
  | none => { registered := none, closeCode := some 1008, framesSent := [] }
  | some info =>
      if info.token = msg.token then
        { registered := msg.name, closeCode := none, framesSent := [] }
      else
        { registered := none, closeCode := some 1008, framesSent := [] }

/-- Modelled from the spec: the authentication rule of spec §4.2, which is
absent from the source (the source has no token-keyed lookup and no
`auth_success` frame). Authentication succeeds iff the token is present
in the store and, when a name is supplied, the stored name for that token
equals it; the assigned name is the store name; on success an
`auth_success` frame carries the canonical name. Used only for comparison
with `authStep`. -/
def specAuthStep (clients : List ClientInfo) (msg : AuthMsg) : AuthEffect :=
  match clients.find? (fun c => c.token == msg.token) with
  | none => { registered := none, closeCode := some 1008, framesSent := [] }
  | some info =>
      match msg.name with
      | none =>
          { registered := some info.name, closeCode := none,
            framesSent := [Frame.authSuccess info.name] }
      | some n =>
          if info.name = n then
            { registered := some info.name, closeCode := none,
              framesSent := [Frame.authSuccess info.name] }
          else
            { registered := none, closeCode := some 1008, framesSent := [] }

/-! ## Session registry (DoggyHoleServer.connectedClients)

The source keeps `connectedClients : Map<WebSocket, { name, lastHeartbeat }>`.
Transports are modelled by numeric handles; open-ness of a transport
(`ws.readyState === WebSocket.OPEN`) is a parameter `wsOpen`. -/

/-- One entry of `connectedClients`: a transport handle and the name the
session authenticated under. -/
structure Session where
  ws : Nat
  name : String
deriving DecidableEq, Repr

/-- `connectedClients.set(ws, { name, ... })`: replaces the entry keyed by
`ws` when present, otherwise appends a new entry. -/
def registerSession (sessions : List Session) (ws : Nat) (name : String) :
    List Session :=
  if sessions.any (fun s => s.ws == ws) then
    sessions.map (fun s => if s.ws == ws then { ws := ws, name := name } else s)
  else
    sessions ++ [{ ws := ws, name := name }]

/-- `DoggyHoleServer.findClientByName`: iterates `connectedClients` in
insertion order and returns the first transport whose session bears the
name, or `null`. -/
def findClientByName (sessions : List Session) (name : String) : Option Nat :=
  (sessions.find? (fun s => s.name == name)).map (fun s => s.ws)

/-- `DoggyHoleServer.getClientName`: name of the session registered for a
transport, or the string `unknown`. -/
def getClientName (sessions : List Session) (ws : Nat) : String :=
  match sessions.find? (fun s => s.ws == ws) with
  | some s => s.name
  | none => "unknown"

/-- `DoggyHoleServer.sendResponse`: builds a `response` frame (no
`originalFromClient` field) and writes it iff the transport is open. -/
def sendResponse (wsOpen : Nat → Bool) (ws : Nat) (id : String)
    (success : Bool) (data : Json) (error : Option String) :
    List (Nat × Frame) :=
  if wsOpen ws then [(ws, Frame.response id success data error none)] else []

/-! ## Server RPC dispatch (DoggyHoleServer.handleRequest) -/

/-- Result of invoking a registered handler on the request payload.
`await handler(data)` either returns a value, throws an `Error` carrying a
message, or throws a non-`Error` value (stringified as `Unknown error`). -/
inductive HandlerOutcome where
  | ok (value : Json)
  | errMsg (message : String)
  | errNonError

/-- The `error instanceof Error ? error.message : 'Unknown error'`
stringification used by `handleRequest` and `handleClientRequest`. -/
def stringifyThrown : HandlerOutcome → Option String
  | HandlerOutcome.ok _ => none
  | HandlerOutcome.errMsg m => some m
  | HandlerOutcome.errNonError => some "Unknown error"

/-- `DoggyHoleServer.handleRequest`: looks up `functionName` in the
`handlers` map; missing handler yields a failure `response` carrying
`HandlerNotFoundError`'s message; a throwing handler yields a failure
`response` with the stringified error; otherwise a success `response`
with the handler's return value. -/
def handleRequest (handlers : List (String × (Json → HandlerOutcome)))
    (wsOpen : Nat → Bool) (ws : Nat) (id functionName : String)
    (data : Json) : List (Nat × Frame) :=
  match (handlers.find? (fun p => p.1 == functionName)).map (fun p => p.2) with
  | none =>
      sendResponse wsOpen ws id false Json.null
        (some (handlerNotFoundMessage functionName))
  | some handler =>
      match handler data with
      | HandlerOutcome.ok result => sendResponse wsOpen ws id true result none
      | HandlerOutcome.errMsg m =>
          sendResponse wsOpen ws id false Json.null (some m)
      | HandlerOutcome.errNonError =>
          sendResponse wsOpen ws id false Json.null (some "Unknown error")

/-! ## Peer-RPC forwarding (DoggyHoleServer.handleClientRequest) -/

/-- An inbound `client_request` frame. `fromClient` is whatever the caller
supplied; the server overwrites it before forwarding. -/
structure ClientRequestMsg where
  id : String
  functionName : String
  data : Json
  targetClient : String
  fromClient : Option String

/-- `DoggyHoleServer.handleClientRequest`: resolves `targetClient` via
`findClientByName`. Missing target: failure `response` to the caller with
`ClientNotFoundError`'s message. Found target: rebuilds the frame with
`fromClient := getClientName(callerWs)` and forwards it iff the target
transport is open, else replies to the caller with
`Target client not available`. -/
def handleClientRequest (sessions : List Session) (wsOpen : Nat → Bool)
    (callerWs : Nat) (msg : ClientRequestMsg) : List (Nat × Frame) :=
  match findClientByName sessions msg.targetClient with
  | none =>
      sendResponse wsOpen callerWs msg.id false Json.null
        (some (clientNotFoundMessage msg.targetClient))
  | some targetWs =>
      let forwarded : Frame :=
        Frame.clientRequest msg.id msg.functionName msg.data msg.targetClient
          (getClientName sessions callerWs)
      if wsOpen targetWs then [(targetWs, forwarded)]
      else
        sendResponse wsOpen callerWs msg.id false Json.null
          (some "Target client not available")

/-! ## Event buses (src/internalClasses.ts)

`DoggyHoleClientEventManager` and `DoggyHoleServerEventManager` keep the
same two tables — `eventHandlers` and `onceHandlers`, each a
`Map<string, Set<handler>>` — and their `on` / `once` / dispatch table
manipulation is identical; one model covers both. Handler functions are
identified by reference, modelled as numeric handles. A JavaScript `Set`
is an insertion-ordered collection in which adding a present element is a
no-op, modelled by `setAdd` on duplicate-free lists. -/

/-- `Set.add`: appends the handler unless it is already present. -/
def setAdd (handlers : List Nat) (h : Nat) : List Nat :=
  if h ∈ handlers then handlers else handlers ++ [h]

/-- `table.get(eventName)` with a missing key read as the empty set. -/
def tableGet (table : List (String × List Nat)) (eventName : String) :
    List Nat :=
  match table.find? (fun p => p.1 == eventName) with
  | some p => p.2
  | none => []

/-- `table.get(eventName).add(h)`, creating the entry on first use
(the `if (!map.has(e)) map.set(e, new Set())` idiom). -/
def tableAdd (table : List (String × List Nat)) (eventName : String)
    (h : Nat) : List (String × List Nat) :=
  if table.any (fun p => p.1 == eventName) then
    table.map (fun p => if p.1 == eventName then (p.1, setAdd p.2 h) else p)
  else
    table ++ [(eventName, [h])]

/-- `table.delete(eventName)`. -/
def tableDelete (table : List (String × List Nat)) (eventName : String) :
    List (String × List Nat) :=
  table.filter (fun p => !(p.1 == eventName))

/-- The two subscription tables of an event manager. -/
structure Bus where
  persistent : List (String × List Nat)
  once : List (String × List Nat)
deriving DecidableEq, Repr

/-- `on(eventName, handler)`: adds to the persistent table (the
max-listeners check only logs a warning and never blocks). -/
def busOn (b : Bus) (eventName : String) (h : Nat) : Bus :=
  { b with persistent := tableAdd b.persistent eventName h }

/-- `once(eventName, handler)`: adds to the one-shot table. -/
def busOnce (b : Bus) (eventName : String) (h : Nat) : Bus :=
  { b with once := tableAdd b.once eventName h }

/-- `getListenerCount(eventName)`: persistent size plus one-shot size. -/
def getListenerCount (b : Bus) (eventName : String) : Nat :=
  (tableGet b.persistent eventName).length + (tableGet b.once eventName).length

/-- One handler invocation: the handler reference and the `(data,
fromClient)` arguments it is called with. -/
structure Invocation where
  handler : Nat
  data : Json
  fromClient : String

/-- Dispatch of one event on a bus (`emit` of the server manager,
`handleIncomingEvent` of the client manager): every persistent handler for
the name fires with `(data, fromClient)`, then the one-shot set is cleared
and its snapshot fires; errors thrown by handlers are caught and do not
stop the iteration. Returns the invocation sequence and the bus
afterwards. -/
def busDispatch (b : Bus) (eventName : String) (data : Json)
    (fromClient : String) : List Invocation × Bus :=
  ((tableGet b.persistent eventName ++ tableGet b.once eventName).map
      (fun h => { handler := h, data := data, fromClient := fromClient }),
    { b with once := tableDelete b.once eventName })

/-! ## Event fan-out (DoggyHoleServerEventManager.handleIncomingEvent) -/

/-- Fields produced by spreading a JSON value in an object literal
(`{ ...data }`): objects contribute their fields, arrays and strings
contribute index-keyed entries, primitives contribute nothing. -/
def spreadFields : Json → List (String × Json)
  | Json.obj fields => fields
  | Json.arr elems =>
      (elems.enum).map (fun p => (Nat.repr p.1, p.2))
  | Json.str s =>
      (s.data.enum).map (fun p => (Nat.repr p.1, Json.str (String.mk [p.2])))
  | _ => []

/-- Writing one more property into an object literal: a later property
with an existing key overwrites the value in place, a fresh key is
appended. -/
def setField (fields : List (String × Json)) (key : String) (v : Json) :
    List (String × Json) :=
  if fields.any (fun p => p.1 == key) then
    fields.map (fun p => if p.1 == key then (p.1, v) else p)
  else
    fields ++ [(key, v)]

/-- The `{ ...data, fromClient }` enrichment of the broadcast payload. -/
def enrich (data : Json) (fromClient : String) : Json :=
  Json.obj (setField (spreadFields data) "fromClient" (Json.str fromClient))

/-- `DoggyHoleServerEventManager.broadcastToOthers`: one `event` frame —
same `eventName`, payload enriched with `fromClient` — to every session
whose name differs from the originator's and whose transport is open. -/
def broadcastToOthers (sessions : List Session) (wsOpen : Nat → Bool)
    (eventName : String) (data : Json) (fromClient : String) :
    List (Nat × Frame) :=
  (sessions.filter (fun s => !(s.name == fromClient) && wsOpen s.ws)).map
    (fun s => (s.ws, Frame.eventFrame eventName (enrich data fromClient) fromClient))

/-- `DoggyHoleServerEventManager.handleIncomingEvent` (reached from
`DoggyHoleServer.handleEvent` with `fromClient` the sender session's
registered name): fires the server bus with the original `(data,
fromClient)` and broadcasts to the other sessions. -/
def handleIncomingEvent (b : Bus) (sessions : List Session)
    (wsOpen : Nat → Bool) (fromClient eventName : String) (data : Json) :
    (List Invocation × Bus) × List (Nat × Frame) :=
  (busDispatch b eventName data fromClient,
    broadcastToOthers sessions wsOpen eventName data fromClient)

/-! ## Pending requests (DoggyHoleClient.pendingRequests)

`pendingRequests : Map<string, { resolve, reject, timeout }>`. The three
settlement paths — `handleResponse`, the per-request timeout callback, and
`cleanup` on transport close — each guard on membership of the id before
settling and remove the entry when they settle. Membership is the only
part of the entry the guards inspect, so the table is modelled by the list
of pending ids together with the settlement each id received. -/

/-- Terminal outcome of one pending request. -/
inductive Outcome where
  | resolved (data : Json)
  | rejectedError (message : String)
  | timedOut
  | connectionClosed

/-- The `message.error || 'Unknown error'` fallback in
`handleResponse`: JavaScript treats the empty string as falsy. -/
def jsOrElse (o : Option String) (fallback : String) : String :=
  match o with
  | some m => if m = "" then fallback else m
  | none => fallback

/-- Pending table and the settlements performed so far. -/
structure PendingState where
  pending : List String
  settled : List (String × Outcome)

/-- First settlement recorded for an id. -/
def settledGet (s : PendingState) (id : String) : Option Outcome :=
  (s.settled.find? (fun p => p.1 == id)).map (fun p => p.2)

/-- Events that can settle pending requests: an inbound `response` frame
(`handleResponse`), a request deadline firing (the `setTimeout` callback
in `request` / `requestClient`), and the transport close (`cleanup`). -/
inductive PendEvent where
  | response (id : String) (success : Bool) (data : Json) (error : Option String)
  | timeoutFire (id : String)
  | close

/-- One settlement step.
`handleResponse`: if the id is pending, clear its timer, remove it, and
resolve with `data` or reject with the stringified error; otherwise do
nothing. Timeout callback: if the id is still pending, remove it and
reject with `TimeoutError`; otherwise do nothing. `cleanup`: reject every
pending entry with `ConnectionError` and clear the table. -/
def stepEvent (s : PendingState) (ev : PendEvent) : PendingState :=
  match ev with
  | PendEvent.response id success data error =>
      if id ∈ s.pending then
        { pending := s.pending.erase id,
          settled := s.settled ++
            [(id, if success then Outcome.resolved data
                  else Outcome.rejectedError (jsOrElse error "Unknown error"))] }
      else s
  | PendEvent.timeoutFire id =>
      if id ∈ s.pending then
        { pending := s.pending.erase id,
          settled := s.settled ++ [(id, Outcome.timedOut)] }
      else s
  | PendEvent.close =>
      { pending := [],
        settled := s.settled ++ s.pending.map (fun id => (id, Outcome.connectionClosed)) }

/-- A run of settlement events. -/
def runEvents (s : PendingState) (evs : List PendEvent) : PendingState :=
  evs.foldl stepEvent s

/-- Whether an event would settle this id (the membership guard it runs). -/
def targets (ev : PendEvent) (id : String) : Bool :=
  match ev with
  | PendEvent.response i _ _ _ => i == id
  | PendEvent.timeoutFire i => i == id
  | PendEvent.close => true

/-- The outcome an event settles a pending id with. -/
def eventOutcome (ev : PendEvent) : Outcome :=
  match ev with
  | PendEvent.response _ success data error =>
      if success then Outcome.resolved data
      else Outcome.rejectedError (jsOrElse error "Unknown error")
  | PendEvent.timeoutFire _ => Outcome.timedOut
  | PendEvent.close => Outcome.connectionClosed

/-! ## Client connection machine (DoggyHoleClient)

The fields of `DoggyHoleClient` that the connect / close / reconnect
paths read or write, and the three transitions: the `connect()` entry
(its synchronous guard), the transport `open` listener, and the
transport `close` listener with `scheduleReconnect`. The backoff
multiplier is a rational; for every reachable attempt count the
JavaScript float computation `1000 * Math.pow(m, n-1)` is exact, so the
rational model coincides with it. -/

/-- `ConnectionState` from src/types.ts. -/
inductive ConnState where
  | disconnected
  | connecting
  | connected
  | reconnecting
  | disconnecting
deriving DecidableEq, Repr

/-- The client options consulted by these paths. -/
structure ReconnectOptions where
  maxReconnectAttempts : Nat
  reconnectBackoffMultiplier : ℚ
deriving DecidableEq, Repr

/-- Client instance state touched by connect / close / reconnect and by
request-id allocation. -/
structure ClientConn where
  connectionState : ConnState
  reconnectAttempts : Nat
  requestId : Nat
  pendingIds : List String
  heartbeatTimerOn : Bool
  /-- Delay of the currently scheduled reconnect timer, if any. -/
  reconnectDelay : Option ℚ
  /-- Whether a transport object exists (`this.ws !== null`). -/
  hasTransport : Bool
deriving DecidableEq, Repr

/-- `DoggyHoleClient.cleanup`: stops the heartbeat timer, cancels a
scheduled reconnect, rejects and clears all pending requests. -/
def cleanup (s : ClientConn) : ClientConn :=
  { s with heartbeatTimerOn := false, reconnectDelay := none, pendingIds := [] }

/-- `DoggyHoleClient.scheduleReconnect`: cancels any scheduled timer,
post-increments `reconnectAttempts`, computes
`min(1000 * multiplier ^ (attempts - 1), 30000)`, enters `Reconnecting`
and arms the timer with that delay. -/
def scheduleReconnect (o : ReconnectOptions) (s : ClientConn) : ClientConn :=
  let attempts := s.reconnectAttempts + 1
  let delay : ℚ :=
    min (1000 * o.reconnectBackoffMultiplier ^ (attempts - 1)) 30000
  { s with reconnectAttempts := attempts,
           connectionState := ConnState.reconnecting,
           reconnectDelay := some delay }

/-- The transport `close` listener registered in `connect()`: runs
`cleanup`, enters `Disconnected`, then schedules a reconnect iff the
close code is neither 1000 nor 1001, `reconnectAttempts` is below the
cap, and `isClientShuttingDown()` (state equals `Disconnecting`,
checked after the state was just set to `Disconnected`) is false. -/
def onClose (o : ReconnectOptions) (s : ClientConn) (code : Nat) : ClientConn :=
  let s1 := { cleanup s with connectionState := ConnState.disconnected }
  if code ≠ 1000 ∧ code ≠ 1001 ∧
      s1.reconnectAttempts < o.maxReconnectAttempts ∧
      s1.connectionState ≠ ConnState.disconnecting then
    scheduleReconnect o s1
  else s1

/-- The transport `open` listener registered in `connect()`: sends the
auth frame, starts the heartbeat timer, resets `reconnectAttempts` to 0
and enters `Connected`. `requestId` is not touched. -/
def onOpen (s : ClientConn) : ClientConn :=
  { s with heartbeatTimerOn := true,
           reconnectAttempts := 0,
           connectionState := ConnState.connected }

/-- The synchronous guard of `DoggyHoleClient.connect()`: when already
`Connected` or `Connecting` it logs and returns at once; otherwise it
enters `Connecting` and constructs a new WebSocket. The returned flag
records whether a transport was created. -/
def connectAttempt (s : ClientConn) : ClientConn × Bool :=
  if s.connectionState = ConnState.connected then (s, false)
  else if s.connectionState = ConnState.connecting then (s, false)
  else ({ s with connectionState := ConnState.connecting, hasTransport := true }, true)

/-! ## Request correlation ids (DoggyHoleClient.request / requestClient) -/

/-- The id allocation `(++this.requestId).toString()` shared by `request`
and `requestClient`. -/
def allocRequestId (s : ClientConn) : ClientConn × String :=
  let rid := s.requestId + 1
  ({ s with requestId := rid }, Nat.repr rid)

/-- State after `n` successive allocations. -/
def allocIter (s : ClientConn) : Nat → ClientConn
  | 0 => s
  | n + 1 => (allocRequestId (allocIter s n)).1

/-- The id handed out by the (n+1)-st call to `request`/`requestClient`
after state `s` (counting from `n = 0`). -/
def nthId (s : ClientConn) (n : Nat) : String :=
  (allocRequestId (allocIter s n)).2

/-! ## Server registry evolution under authentication -/

/-- The slice of `DoggyHoleServer` state that authentication touches. -/
structure ServerState where
  clients : List ClientInfo
  sessions : List Session

/-- Effect of a fresh connection's first `auth` frame on the registry
(the `setupServer` message listener): on auth success the session is
registered under the supplied name, on failure the registry is untouched
(the connection was closed with 1008 before registration). -/
def authConnection (st : ServerState) (ws : Nat) (msg : AuthMsg) : ServerState :=
  match (authStep st.clients msg).registered with
  | some n => { st with sessions := registerSession st.sessions ws n }
  | none => st

/-! ## Decimal rendering of request ids

`(++this.requestId).toString()` renders the counter in base 10, i.e.
`Nat.repr`. Distinct counters render to distinct strings; proved by a
digit-parse round trip through the core `Nat.toDigitsCore`. -/

/-- Numeric value of a decimal digit character. -/
def digitVal (c : Char) : Nat := c.toNat - 48

/-- Value of a big-endian decimal digit string. -/
def digitsVal (l : List Char) : Nat :=
  l.foldl (fun a c => 10 * a + digitVal c) 0

theorem toDigitsCore_append (f : Nat) :
    ∀ (n : Nat) (ds : List Char),
      Nat.toDigitsCore 10 f n ds = Nat.toDigitsCore 10 f n [] ++ ds := by
  induction f with
  | zero => intro n ds; simp [Nat.toDigitsCore]
  | succ f ih =>
      intro n ds
      simp only [Nat.toDigitsCore]
      by_cases h : n / 10 = 0
      · simp [h]
      · simp only [if_neg h]
        rw [ih (n / 10) (Nat.digitChar (n % 10) :: ds),
            ih (n / 10) [Nat.digitChar (n % 10)]]
        simp

theorem digitVal_digitChar : ∀ d, d < 10 → digitVal (Nat.digitChar d) = d := by
  decide

theorem digitsVal_append_singleton (l : List Char) (c : Char) :
    digitsVal (l ++ [c]) = 10 * digitsVal l + digitVal c := by
  simp [digitsVal, List.foldl_append]

theorem digitsVal_toDigitsCore :
    ∀ n f : Nat, n < f → digitsVal (Nat.toDigitsCore 10 f n []) = n := by
  intro n
  induction n using Nat.strong_induction_on with
  | _ n ih =>
      intro f hf
      match f, hf with
      | f + 1, hf =>
        simp only [Nat.toDigitsCore]
        by_cases h : n / 10 = 0
        · have hn : n < 10 := by
            have := Nat.div_add_mod n 10
            have hm : n % 10 < 10 := Nat.mod_lt _ (by norm_num)
            omega
          simp only [if_pos h]
          have : n % 10 = n := Nat.mod_eq_of_lt hn
          simp [digitsVal, this, digitVal_digitChar n hn]
        · simp only [if_neg h]
          rw [toDigitsCore_append]
          rw [digitsVal_append_singleton]
          have hlt : n / 10 < n := by
            have h1 : 0 < n := by
              rcases Nat.eq_zero_or_pos n with h0 | h0
              · exfalso; apply h; simp [h0]
              · exact h0
            exact Nat.div_lt_self h1 (by norm_num)
          have hfuel : n / 10 < f := by omega
          rw [ih (n / 10) hlt f hfuel]
          have hm : n % 10 < 10 := Nat.mod_lt _ (by norm_num)
          rw [digitVal_digitChar _ hm]
          exact Nat.div_add_mod n 10

theorem natRepr_injective {m n : Nat} (h : Nat.repr m = Nat.repr n) : m = n := by
  have hdigits : Nat.toDigits 10 m = Nat.toDigits 10 n := by
    have := congrArg String.data h
    simpa [Nat.repr, List.asString] using this
  have hm := digitsVal_toDigitsCore m (m + 1) (Nat.lt_succ_self m)
  have hn := digitsVal_toDigitsCore n (n + 1) (Nat.lt_succ_self n)
  simp only [Nat.toDigits] at hdigits
  rw [hdigits] at hm
  rw [hn] at hm
  exact hm.symm

/-! ## Claim C1: authentication -/

/-- C1 counterexample: with the store holding token `T` under name
`alice`, a token-only `auth` frame (no name) satisfies the claimed
success condition — per the claim the server should register `alice` and
send `auth_success` — yet the code closes the transport with 1008 and
registers nothing, because `handleAuth` looks the credential up by name,
not by token. -/
theorem C1_counterexample :
    (specAuthStep [{ name := "alice", token := "T" }] { name := none, token := "T" }).registered
        = some "alice" ∧
    (specAuthStep [{ name := "alice", token := "T" }] { name := none, token := "T" }).closeCode
        = none ∧
    (authStep [{ name := "alice", token := "T" }] { name := none, token := "T" }).registered
        = none ∧
    (authStep [{ name := "alice", token := "T" }] { name := none, token := "T" }).closeCode
        = some 1008 := by
  refine ⟨rfl, rfl, rfl, rfl⟩

/-- C1 (amended): authentication succeeds iff a `name` is supplied and the
store's record under that name carries the supplied token (token-only
frames always fail); on success the session is registered under the
supplied name and no frame — in particular no `auth_success` — is written
back; on failure the transport is closed with 1008 and nothing is
registered. -/
theorem C1_auth (clients : List ClientInfo) (msg : AuthMsg) :
    (authStep clients msg).framesSent = [] ∧
    ((authStep clients msg).closeCode = none ↔
      ∃ n info, msg.name = some n ∧ storeGet clients n = some info ∧
        info.token = msg.token) ∧
    ((authStep clients msg).closeCode = none →
      (authStep clients msg).registered = msg.name) ∧
    ((authStep clients msg).closeCode ≠ none →
      (authStep clients msg).registered = none ∧
      (authStep clients msg).closeCode = some 1008) := by
  obtain ⟨name, token⟩ := msg
  cases name with
  | none => simp [authStep]
  | some n =>
      cases hs : storeGet clients n with
      | none => simp [authStep, hs]
      | some info =>
          by_cases ht : info.token = token
          · simp [authStep, hs, ht]
          · simp [authStep, hs, ht]

/-- Witness for C1_auth at a concrete store and frame. -/
theorem C1_auth_witness :
    (authStep [{ name := "alice", token := "T" }]
        { name := some "alice", token := "T" }).registered = some "alice" :=
  (C1_auth [{ name := "alice", token := "T" }]
      { name := some "alice", token := "T" }).2.2.1
    ((C1_auth [{ name := "alice", token := "T" }]
        { name := some "alice", token := "T" }).2.1.mpr
      ⟨"alice", { name := "alice", token := "T" }, rfl, by decide, rfl⟩)

/-! ## Claim C2: peer-RPC forwarding -/

/-- C2 counterexample: with only `alice` (ws 1) connected, a
`client_request` from her to the unregistered `bob` is answered with
`error = "Client not found: bob"` (the `ClientNotFoundError` message),
not the claimed literal `"Target client not found"`. -/
theorem C2_counterexample :
    handleClientRequest [{ ws := 1, name := "alice" }] (fun _ => true) 1
        { id := "7", functionName := "ping", data := Json.null,
          targetClient := "bob", fromClient := none } =
      [(1, Frame.response "7" false Json.null
          (some "Client not found: bob") none)] ∧
    "Client not found: bob" ≠ "Target client not found" := by
  refine ⟨rfl, by decide⟩

/-- C2 (amended): for a `client_request` from an authenticated caller on
an open transport, the server overwrites any supplied `fromClient` with
the caller's registered name and forwards the frame with `id` unchanged
to the first session registered under `targetClient` when it exists and
its transport is open; when no session bears that name it replies to the
caller with success=false and `error = "Client not found: " ++
targetClient`; when the target transport is not open it replies with
`error = "Target client not available"`. -/
theorem C2_routing (sessions : List Session) (wsOpen : Nat → Bool)
    (callerWs : Nat) (callerName : String) (msg : ClientRequestMsg)
    (hcaller : sessions.find? (fun s => s.ws == callerWs) =
      some { ws := callerWs, name := callerName })
    (hopen : wsOpen callerWs = true) :
    (∀ targetWs, findClientByName sessions msg.targetClient = some targetWs →
        wsOpen targetWs = true →
        handleClientRequest sessions wsOpen callerWs msg =
          [(targetWs, Frame.clientRequest msg.id msg.functionName msg.data
              msg.targetClient callerName)]) ∧
    (findClientByName sessions msg.targetClient = none →
        handleClientRequest sessions wsOpen callerWs msg =
          [(callerWs, Frame.response msg.id false Json.null
              (some (clientNotFoundMessage msg.targetClient)) none)]) ∧
    (∀ targetWs, findClientByName sessions msg.targetClient = some targetWs →
        wsOpen targetWs = false →
        handleClientRequest sessions wsOpen callerWs msg =
          [(callerWs, Frame.response msg.id false Json.null
              (some "Target client not available") none)]) := by
  have hname : getClientName sessions callerWs = callerName := by
    simp [getClientName, hcaller]
  refine ⟨?_, ?_, ?_⟩
  · intro targetWs hfind htopen
    simp [handleClientRequest, hfind, htopen, hname]
  · intro hfind
    simp [handleClientRequest, hfind, sendResponse, hopen]
  · intro targetWs hfind htopen
    simp [handleClientRequest, hfind, htopen, sendResponse, hopen]

/-- Witness for C2_routing: alice (ws 1) calls bob (ws 2), both open. -/
theorem C2_routing_witness :
    handleClientRequest [{ ws := 1, name := "alice" }, { ws := 2, name := "bob" }]
        (fun _ => true) 1
        { id := "7", functionName := "ping", data := Json.null,
          targetClient := "bob", fromClient := some "mallory" } =
      [(2, Frame.clientRequest "7" "ping" Json.null "bob" "alice")] :=
  (C2_routing [{ ws := 1, name := "alice" }, { ws := 2, name := "bob" }]
      (fun _ => true) 1 "alice"
      { id := "7", functionName := "ping", data := Json.null,
        targetClient := "bob", fromClient := some "mallory" }
      (by decide) rfl).1 2 (by decide) rfl

/-! ## Claim C3: server RPC dispatch -/

/-- C3 counterexample: a `request` for the unregistered function `add` is
answered with `error = "Handler not found: add"` (the
`HandlerNotFoundError` message), not the claimed literal
`"Handler not found"`. -/
theorem C3_counterexample :
    handleRequest [] (fun _ => true) 0 "1" "add" Json.null =
      [(0, Frame.response "1" false Json.null
          (some "Handler not found: add") none)] ∧
    "Handler not found: add" ≠ "Handler not found" := by
  refine ⟨rfl, by decide⟩

/-- C3 (amended): for every inbound `request` with id i processed while
the session transport is open, the server emits exactly one `response`
with id i on that transport: success=false with
`error = "Handler not found: " ++ functionName` when no handler is
registered; success=false with the stringified thrown message (or
`Unknown error` for a non-Error throw) when the handler throws; and
success=true carrying the handler's return value otherwise. -/
theorem C3_request (handlers : List (String × (Json → HandlerOutcome)))
    (wsOpen : Nat → Bool) (ws : Nat) (id functionName : String) (data : Json)
    (hopen : wsOpen ws = true) :
    (∃ success rdata rerror,
        handleRequest handlers wsOpen ws id functionName data =
          [(ws, Frame.response id success rdata rerror none)]) ∧
    (handlers.find? (fun p => p.1 == functionName) = none →
        handleRequest handlers wsOpen ws id functionName data =
          [(ws, Frame.response id false Json.null
              (some (handlerNotFoundMessage functionName)) none)]) ∧
    (∀ p, handlers.find? (fun p => p.1 == functionName) = some p →
        (∀ v, p.2 data = HandlerOutcome.ok v →
            handleRequest handlers wsOpen ws id functionName data =
              [(ws, Frame.response id true v none none)]) ∧
        (∀ m, p.2 data = HandlerOutcome.errMsg m →
            handleRequest handlers wsOpen ws id functionName data =
              [(ws, Frame.response id false Json.null (some m) none)]) ∧
        (p.2 data = HandlerOutcome.errNonError →
            handleRequest handlers wsOpen ws id functionName data =
              [(ws, Frame.response id false Json.null
                  (some "Unknown error") none)])) := by
  refine ⟨?_, ?_, ?_⟩
  · cases hfind : handlers.find? (fun p => p.1 == functionName) with
    | none =>
        exact ⟨false, Json.null, some (handlerNotFoundMessage functionName),
          by simp [handleRequest, hfind, sendResponse, hopen]⟩
    | some p =>
        cases hout : p.2 data with
        | ok v =>
            exact ⟨true, v, none,
              by simp [handleRequest, hfind, hout, sendResponse, hopen]⟩
        | errMsg m =>
            exact ⟨false, Json.null, some m,
              by simp [handleRequest, hfind, hout, sendResponse, hopen]⟩
        | errNonError =>
            exact ⟨false, Json.null, some "Unknown error",
              by simp [handleRequest, hfind, hout, sendResponse, hopen]⟩
  · intro hfind
    simp [handleRequest, hfind, sendResponse, hopen]
  · intro p hfind
    refine ⟨?_, ?_, ?_⟩
    · intro v hout
      simp [handleRequest, hfind, hout, sendResponse, hopen]
    · intro m hout
      simp [handleRequest, hfind, hout, sendResponse, hopen]
    · intro hout
      simp [handleRequest, hfind, hout, sendResponse, hopen]

/-- Witness for C3_request: no handler registered for `add`. -/
theorem C3_request_witness :
    handleRequest [] (fun _ => true) 0 "1" "add" Json.null =
      [(0, Frame.response "1" false Json.null
          (some (handlerNotFoundMessage "add")) none)] :=
  (C3_request [] (fun _ => true) 0 "1" "add" Json.null rfl).2.1 rfl

/-! ## Claim C9: connect() is a no-op when Connected or Connecting -/

/-- C9: calling `connect()` while the connection state is `Connected` or
`Connecting` returns at once: no transport is created and the whole
client state — connection state, pending requests, timers, reconnect
counter, request counter — is unchanged. -/
theorem C9_connect_noop (s : ClientConn)
    (h : s.connectionState = ConnState.connected ∨
      s.connectionState = ConnState.connecting) :
    connectAttempt s = (s, false) := by
  rcases h with h | h <;> simp [connectAttempt, h]

/-- Witness for C9_connect_noop at a concrete connected client. -/
theorem C9_connect_noop_witness :
    connectAttempt
        { connectionState := ConnState.connected, reconnectAttempts := 2,
          requestId := 7, pendingIds := ["3"], heartbeatTimerOn := true,
          reconnectDelay := none, hasTransport := true } =
      ({ connectionState := ConnState.connected, reconnectAttempts := 2,
          requestId := 7, pendingIds := ["3"], heartbeatTimerOn := true,
          reconnectDelay := none, hasTransport := true }, false) :=
  C9_connect_noop _ (Or.inl rfl)

/-! ## Claim C6: session registry uniqueness / displace-old -/

/-- C6 counterexample: starting from an empty registry with credentials
`alice/T`, two connections (ws 1, then ws 2) both authenticate as
`alice`. Afterwards the registry holds two active sessions under the
name `alice` — the prior session was not evicted — refuting both the
at-most-one invariant and the displace-old policy. -/
theorem C6_counterexample :
    (authConnection
        (authConnection { clients := [{ name := "alice", token := "T" }], sessions := [] }
          1 { name := some "alice", token := "T" })
        2 { name := some "alice", token := "T" }).sessions =
      [{ ws := 1, name := "alice" }, { ws := 2, name := "alice" }] ∧
    ((authConnection
        (authConnection { clients := [{ name := "alice", token := "T" }], sessions := [] }
          1 { name := some "alice", token := "T" })
        2 { name := some "alice", token := "T" }).sessions.filter
        (fun s => s.name == "alice")).length = 2 := by
  refine ⟨rfl, rfl⟩

/-- C6 (amended): the registry keyed by transport admits several sessions
under one name; when a new connection (fresh transport handle)
authenticates under an already-registered name, the prior session is kept
alongside the new one — nothing is evicted — and `findClientByName`
continues to resolve the name to the earliest-registered session. -/
theorem C6_registry (sessions : List Session) (ws w : Nat) (name : String)
    (hfresh : ∀ s ∈ sessions, s.ws ≠ ws)
    (hprior : findClientByName sessions name = some w) :
    (∀ s ∈ sessions, s ∈ registerSession sessions ws name) ∧
    ({ ws := ws, name := name } : Session) ∈ registerSession sessions ws name ∧
    findClientByName (registerSession sessions ws name) name = some w := by
  have hany : sessions.any (fun s => s.ws == ws) = false := by
    simp only [List.any_eq_false]
    intro s hs
    simpa using hfresh s hs
  have hreg : registerSession sessions ws name =
      sessions ++ [{ ws := ws, name := name }] := by
    simp [registerSession, hany]
  obtain ⟨s0, hfind, hw⟩ : ∃ s0, sessions.find? (fun s => s.name == name) = some s0 ∧
      s0.ws = w := by
    cases hf : sessions.find? (fun s => s.name == name) with
    | none => simp [findClientByName, hf] at hprior
    | some s0 =>
        refine ⟨s0, rfl, ?_⟩
        simpa [findClientByName, hf] using hprior
  refine ⟨?_, ?_, ?_⟩
  · intro s hs
    rw [hreg]
    exact List.mem_append_left _ hs
  · rw [hreg]
    exact List.mem_append_right _ (by simp)
  · rw [hreg]
    simp [findClientByName, List.find?_append, hfind, hw]

/-- Witness for C6_registry: bob's fresh connection (ws 2) authenticates
as `alice` while ws 1 already holds that name. -/
theorem C6_registry_witness :
    ({ ws := 1, name := "alice" } : Session) ∈
      registerSession [{ ws := 1, name := "alice" }] 2 "alice" ∧
    findClientByName (registerSession [{ ws := 1, name := "alice" }] 2 "alice")
      "alice" = some 1 := by
  have h := C6_registry [{ ws := 1, name := "alice" }] 2 1 "alice"
    (by decide) (by decide)
  exact ⟨h.1 { ws := 1, name := "alice" } (by decide), h.2.2⟩

/-! ## Claim C7: reconnection policy -/

/-- C7: close codes 1000 and 1001 suppress reconnection; any other code
schedules a reconnect iff `reconnectAttempts < maxReconnectAttempts`
(the `Disconnecting` check reads a state just set to `Disconnected`, so
it never blocks); the scheduled delay is
`min(1000 * multiplier ^ (n - 1), 30000)` with n the post-incremented
attempt number; when the cap is exhausted the client stays
`Disconnected` with nothing scheduled; a successful `open` resets
`reconnectAttempts` to 0. -/
theorem C7_reconnect (o : ReconnectOptions) (s : ClientConn) (code : Nat) :
    ((code = 1000 ∨ code = 1001) →
        onClose o s code =
          { cleanup s with connectionState := ConnState.disconnected }) ∧
    (code ≠ 1000 → code ≠ 1001 →
        ((onClose o s code).reconnectDelay ≠ none ↔
          s.reconnectAttempts < o.maxReconnectAttempts)) ∧
    (code ≠ 1000 → code ≠ 1001 →
        s.reconnectAttempts < o.maxReconnectAttempts →
        (onClose o s code).reconnectAttempts = s.reconnectAttempts + 1 ∧
        (onClose o s code).reconnectDelay =
          some (min (1000 * o.reconnectBackoffMultiplier ^ s.reconnectAttempts)
            30000) ∧
        (onClose o s code).connectionState = ConnState.reconnecting) ∧
    (code ≠ 1000 → code ≠ 1001 →
        o.maxReconnectAttempts ≤ s.reconnectAttempts →
        onClose o s code =
          { cleanup s with connectionState := ConnState.disconnected }) ∧
    ((onOpen s).reconnectAttempts = 0 ∧
      (onOpen s).connectionState = ConnState.connected ∧
      (onOpen s).requestId = s.requestId) := by
  refine ⟨?_, ?_, ?_, ?_, rfl, rfl, rfl⟩
  · intro h
    rcases h with h | h <;> simp [onClose, h, cleanup]
  · intro h0 h1
    by_cases hlt : s.reconnectAttempts < o.maxReconnectAttempts
    · simp [onClose, h0, h1, hlt, cleanup, scheduleReconnect]
    · simp [onClose, h0, h1, hlt, cleanup, scheduleReconnect]
  · intro h0 h1 hlt
    refine ⟨?_, ?_, ?_⟩ <;>
      simp [onClose, h0, h1, hlt, cleanup, scheduleReconnect]
  · intro h0 h1 hge
    have hlt : ¬ s.reconnectAttempts < o.maxReconnectAttempts := by omega
    simp [onClose, h0, h1, hlt, cleanup]

/-- Witness for C7_reconnect: a dirty close (1006) with one prior attempt
and multiplier 3/2 schedules the second attempt after 1500 ms. -/
theorem C7_reconnect_witness :
    (onClose { maxReconnectAttempts := 5, reconnectBackoffMultiplier := 3 / 2 }
        { connectionState := ConnState.connected, reconnectAttempts := 1,
          requestId := 0, pendingIds := [], heartbeatTimerOn := true,
          reconnectDelay := none, hasTransport := true } 1006).reconnectDelay =
      some 1500 := by
  have h := (C7_reconnect
      { maxReconnectAttempts := 5, reconnectBackoffMultiplier := 3 / 2 }
      { connectionState := ConnState.connected, reconnectAttempts := 1,
        requestId := 0, pendingIds := [], heartbeatTimerOn := true,
        reconnectDelay := none, hasTransport := true } 1006).2.2.1
    (by decide) (by decide) (by decide)
  rw [h.2.1]
  norm_num

/-! ## Claim C8: request correlation ids -/

/-- A sample client state whose request counter stands at 5. -/
def connAt5 : ClientConn :=
  { connectionState := ConnState.connecting, reconnectAttempts := 1,
    requestId := 5, pendingIds := [], heartbeatTimerOn := false,
    reconnectDelay := none, hasTransport := true }

/-- A sample freshly connected client state with counter 0. -/
def connFresh : ClientConn :=
  { connectionState := ConnState.connected, reconnectAttempts := 0,
    requestId := 0, pendingIds := [], heartbeatTimerOn := true,
    reconnectDelay := none, hasTransport := true }

/-- C8 counterexample: a client whose counter stands at 5 establishes a
new connection (`open` fires); the counter is still 5, not 0, and the
next allocated id is "6", not "1" — the counter is never reset. -/
theorem C8_counterexample :
    connAt5.requestId = 5 ∧
    (onOpen connAt5).requestId = 5 ∧
    (5 : Nat) ≠ 0 ∧
    (allocRequestId (onOpen connAt5)).2 = "6" ∧
    "6" ≠ "1" := by
  refine ⟨rfl, rfl, by decide, rfl, by decide⟩

/-- C8 (amended): ids are allocated from a per-client monotonically
increasing integer counter rendered as a decimal string; successive
calls produce strictly increasing, pairwise distinct ids — so they are
unique within one open connection (indeed across the client's lifetime) —
but establishing a new connection does NOT reset the counter. -/
theorem C8_ids (s : ClientConn) (m n : Nat) :
    (allocIter s n).requestId = s.requestId + n ∧
    nthId s n = Nat.repr (s.requestId + n + 1) ∧
    (m < n → s.requestId + m + 1 < s.requestId + n + 1) ∧
    (m ≠ n → nthId s m ≠ nthId s n) ∧
    (onOpen s).requestId = s.requestId := by
  have hiter : ∀ k, (allocIter s k).requestId = s.requestId + k := by
    intro k
    induction k with
    | zero => simp [allocIter]
    | succ k ih => simp [allocIter, allocRequestId, ih]; omega
  have hnth : ∀ k, nthId s k = Nat.repr (s.requestId + k + 1) := by
    intro k
    simp [nthId, allocRequestId, hiter k]
  refine ⟨hiter n, hnth n, by omega, ?_, rfl⟩
  intro hmn heq
  rw [hnth m, hnth n] at heq
  exact hmn (by have := natRepr_injective heq; omega)

/-- Witness for C8_ids: the first two ids allocated after a fresh state
differ. -/
theorem C8_ids_witness : nthId connFresh 0 ≠ nthId connFresh 1 :=
  (C8_ids connFresh 0 1).2.2.2.1 (by decide)

/-! ## Claim C10: duplicate handler registration is a no-op -/

theorem setAdd_mem {l : List Nat} {h : Nat} (hm : h ∈ l) : setAdd l h = l := by
  simp [setAdd, hm]

theorem tableGet_any {t : List (String × List Nat)} {e : String} {h : Nat}
    (hm : h ∈ tableGet t e) : t.any (fun p => p.1 == e) = true := by
  cases hf : t.find? (fun p => p.1 == e) with
  | none => simp [tableGet, hf] at hm
  | some p =>
      have := List.find?_some hf
      rcases List.mem_of_find?_eq_some hf with hp
      simp only [List.any_eq_true]
      exact ⟨p, hp, this⟩

theorem tableAdd_mem :
    ∀ (t : List (String × List Nat)) (e : String) (h : Nat),
      (t.map Prod.fst).Nodup → h ∈ tableGet t e → tableAdd t e h = t := by
  intro t
  induction t with
  | nil => intro e h _ hm; simp [tableGet] at hm
  | cons q rest ih =>
      intro e h hk hm
      by_cases hq : q.1 = e
      · have hget : tableGet (q :: rest) e = q.2 := by
          simp [tableGet, List.find?_cons, hq]
        rw [hget] at hm
        have hkq : q.1 ∉ rest.map Prod.fst :=
          (List.nodup_cons.mp (by simpa using hk)).1
        have hrest : ∀ p ∈ rest, (p.1 == e) = false := by
          intro p hp
          have hne : p.1 ≠ e := by
            intro hpe
            exact hkq (by
              rw [hq, ← hpe]
              exact List.mem_map_of_mem Prod.fst hp)
          simpa using hne
        have hany : (q :: rest).any (fun p => p.1 == e) = true := by
          simp [List.any_cons, hq]
        have hmap : rest.map
            (fun p => if p.1 == e then (p.1, setAdd p.2 h) else p) = rest := by
          rw [show rest = rest.map id by simp]
          rw [List.map_map]
          apply List.map_congr_left
          intro p hp
          have hfalse := hrest p (by simpa using hp)
          simp [Function.comp, hfalse]
        simp only [tableAdd, hany, if_true, List.map_cons]
        rw [if_pos (by simpa using hq), setAdd_mem hm, hmap]
      · have hget : tableGet (q :: rest) e = tableGet rest e := by
          simp [tableGet, List.find?_cons, hq]
        rw [hget] at hm
        have hkrest : (rest.map Prod.fst).Nodup :=
          (List.nodup_cons.mp (by simpa using hk)).2
        have hanyr : rest.any (fun p => p.1 == e) = true := tableGet_any hm
        have hany : (q :: rest).any (fun p => p.1 == e) = true := by
          simp [List.any_cons, hanyr]
        have ihr := ih e h hkrest hm
        simp only [tableAdd, hanyr, if_true] at ihr
        simp only [tableAdd, hany, if_true, List.map_cons]
        rw [if_neg (by simpa using hq), ihr]

theorem busOn_mem (b : Bus) (e : String) (h : Nat)
    (hk : (b.persistent.map Prod.fst).Nodup)
    (hm : h ∈ tableGet b.persistent e) : busOn b e h = b := by
  cases b with
  | mk pers onc => simp [busOn, tableAdd_mem pers e h hk hm]

theorem busOnce_mem (b : Bus) (e : String) (h : Nat)
    (hk : (b.once.map Prod.fst).Nodup)
    (hm : h ∈ tableGet b.once e) : busOnce b e h = b := by
  cases b with
  | mk pers onc => simp [busOnce, tableAdd_mem onc e h hk hm]

/-- C10: on both event managers (their `on`/`once`/dispatch code is
identical), registering a handler already registered for the same event
via the same method is a no-op — the handler `Set` deduplicates, so the
whole bus state and hence `getListenerCount` are unchanged — and one
dispatch of an event fires a registered handler exactly once. -/
theorem C10_dedup (b : Bus) (eventName : String) (h : Nat) (data : Json)
    (fromClient : String)
    (hkp : (b.persistent.map Prod.fst).Nodup)
    (hko : (b.once.map Prod.fst).Nodup) :
    (h ∈ tableGet b.persistent eventName → busOn b eventName h = b) ∧
    (h ∈ tableGet b.once eventName → busOnce b eventName h = b) ∧
    (h ∈ tableGet b.persistent eventName →
        getListenerCount (busOn b eventName h) eventName =
          getListenerCount b eventName) ∧
    ((busDispatch b eventName data fromClient).1.map Invocation.handler =
        tableGet b.persistent eventName ++ tableGet b.once eventName) ∧
    ((tableGet b.persistent eventName ++ tableGet b.once eventName).Nodup →
        h ∈ tableGet b.persistent eventName ++ tableGet b.once eventName →
        ((busDispatch b eventName data fromClient).1.map
            Invocation.handler).count h = 1) := by
  have hdisp : (busDispatch b eventName data fromClient).1.map
      Invocation.handler =
      tableGet b.persistent eventName ++ tableGet b.once eventName := by
    simp [busDispatch, Function.comp_def]
  refine ⟨fun hm => busOn_mem b eventName h hkp hm,
    fun hm => busOnce_mem b eventName h hko hm,
    fun hm => by rw [busOn_mem b eventName h hkp hm],
    hdisp, fun hnd hm => ?_⟩
  rw [hdisp]
  exact List.count_eq_one_of_mem hnd hm

/-- Witness for C10_dedup: re-registering handler 7 on event `hi`. -/
theorem C10_dedup_witness :
    busOn { persistent := [("hi", [7])], once := [] } "hi" 7 =
      { persistent := [("hi", [7])], once := [] } :=
  (C10_dedup { persistent := [("hi", [7])], once := [] } "hi" 7 Json.null
      "alice" (by decide) (by decide)).1 (by decide)

/-! ## Claim C4: event fan-out -/

theorem busDispatch_handlers (b : Bus) (e : String) (data : Json)
    (fc : String) :
    (busDispatch b e data fc).1.map Invocation.handler =
      tableGet b.persistent e ++ tableGet b.once e := by
  simp [busDispatch, Function.comp_def]

theorem countP_ws_zero (q : Session → Bool) (w : Nat) :
    ∀ t : List Session, w ∉ t.map Session.ws →
      t.countP (fun s2 => s2.ws == w && q s2) = 0 := by
  intro t
  induction t with
  | nil => intro _; simp
  | cons a t ih =>
      intro hw
      have hne : a.ws ≠ w := by
        intro he
        apply hw
        simp only [List.map_cons, List.mem_cons]
        exact Or.inl he.symm
      have hwt : w ∉ t.map Session.ws := by
        intro hmem
        apply hw
        simp only [List.map_cons, List.mem_cons]
        exact Or.inr hmem
      rw [List.countP_cons, ih hwt]
      simp [hne]

theorem countP_ws_unique (q : Session → Bool) :
    ∀ (l : List Session) (s : Session), (l.map Session.ws).Nodup → s ∈ l →
      l.countP (fun s2 => s2.ws == s.ws && q s2) =
        if q s then 1 else 0 := by
  intro l
  induction l with
  | nil => intro s _ hs; simp at hs
  | cons a t ih =>
      intro s hnd hs
      have hnd2 : a.ws ∉ t.map Session.ws ∧ (t.map Session.ws).Nodup := by
        rw [List.map_cons, List.nodup_cons] at hnd
        exact hnd
      rcases List.mem_cons.mp hs with hsa | hst
      · subst hsa
        rw [List.countP_cons, countP_ws_zero q s.ws t hnd2.1]
        simp
      · have hne : a.ws ≠ s.ws := by
          intro he
          exact hnd2.1 (by
            rw [he]
            exact List.mem_map_of_mem Session.ws hst)
        rw [List.countP_cons, ih s hnd2.2 hst]
        simp [hne]

/-- C4 counterexample: sessions ws 1 and ws 2 both carry the name
`alice` (reachable, see C6_counterexample) and ws 3 carries `bob`; all
transports are open. An event from the session on ws 1 is broadcast only
to ws 3: the session on ws 2 — an authenticated open session distinct
from the originator — receives zero copies, because the code excludes
recipients by name rather than by session. -/
theorem C4_counterexample :
    (handleIncomingEvent { persistent := [], once := [] }
        [{ ws := 1, name := "alice" }, { ws := 2, name := "alice" },
          { ws := 3, name := "bob" }]
        (fun _ => true) "alice" "hi" Json.null).2 =
      [(3, Frame.eventFrame "hi" (enrich Json.null "alice") "alice")] ∧
    ({ ws := 2, name := "alice" } : Session) ∈
      [({ ws := 1, name := "alice" } : Session), { ws := 2, name := "alice" },
        { ws := 3, name := "bob" }] ∧
    (2 : Nat) ≠ 1 ∧
    ((handleIncomingEvent { persistent := [], once := [] }
        [{ ws := 1, name := "alice" }, { ws := 2, name := "alice" },
          { ws := 3, name := "bob" }]
        (fun _ => true) "alice" "hi" Json.null).2.countP
      (fun p => p.1 == 2)) = 0 := by
  refine ⟨rfl, by decide, by decide, rfl⟩

/-- C4 (amended): for an `event` of name E from authenticated client A
(transport handles pairwise distinct), every other session whose
registered name differs from A and whose transport is open receives
exactly one `event` frame, which carries E and A's data enriched with
fromClient=A; every session registered under A's name — the originator
included — and every session with a non-open transport receives none; the
server bus fires the handlers registered on E, in table order, each with
the original `(data, A)` arguments, and each exactly once when the
handler sets are disjoint and duplicate-free. -/
theorem C4_fanout (b : Bus) (sessions : List Session) (wsOpen : Nat → Bool)
    (fromClient eventName : String) (data : Json) (s : Session)
    (hnd : (sessions.map Session.ws).Nodup) (hs : s ∈ sessions) :
    (s.name ≠ fromClient → wsOpen s.ws = true →
        ((handleIncomingEvent b sessions wsOpen fromClient eventName
            data).2.countP (fun p => p.1 == s.ws)) = 1) ∧
    (s.name = fromClient ∨ wsOpen s.ws = false →
        ((handleIncomingEvent b sessions wsOpen fromClient eventName
            data).2.countP (fun p => p.1 == s.ws)) = 0) ∧
    (∀ p ∈ (handleIncomingEvent b sessions wsOpen fromClient eventName
        data).2,
        p.2 = Frame.eventFrame eventName (enrich data fromClient) fromClient) ∧
    ((handleIncomingEvent b sessions wsOpen fromClient eventName
        data).1.1.map Invocation.handler =
      tableGet b.persistent eventName ++ tableGet b.once eventName) ∧
    (∀ inv ∈ (handleIncomingEvent b sessions wsOpen fromClient eventName
        data).1.1,
        inv.data = data ∧ inv.fromClient = fromClient) ∧
    ((tableGet b.persistent eventName ++ tableGet b.once eventName).Nodup →
        ∀ h ∈ tableGet b.persistent eventName ++ tableGet b.once eventName,
        ((handleIncomingEvent b sessions wsOpen fromClient eventName
            data).1.1.map Invocation.handler).count h = 1) := by
  have hframes : (handleIncomingEvent b sessions wsOpen fromClient eventName
      data).2 = broadcastToOthers sessions wsOpen eventName data fromClient :=
    rfl
  have key : (broadcastToOthers sessions wsOpen eventName data
      fromClient).countP (fun p => p.1 == s.ws) =
      sessions.countP (fun s2 => s2.ws == s.ws &&
        (!(s2.name == fromClient) && wsOpen s2.ws)) := by
    rw [broadcastToOthers, List.countP_map, List.countP_filter]
    congr 1
  have huniq := countP_ws_unique
    (fun s2 => !(s2.name == fromClient) && wsOpen s2.ws) sessions s hnd hs
  refine ⟨?_, ?_, ?_, busDispatch_handlers b eventName data fromClient,
    ?_, ?_⟩
  · intro hname hopen
    rw [hframes, key, huniq, if_pos]
    simp [hname, hopen]
  · intro hcase
    rw [hframes, key, huniq, if_neg]
    rcases hcase with hname | hopen
    · simp [hname]
    · simp [hopen]
  · intro p hp
    rw [hframes] at hp
    rcases List.mem_map.mp hp with ⟨s2, _, hps⟩
    rw [← hps]
  · intro inv hinv
    have hmem2 : inv ∈ (tableGet b.persistent eventName ++
        tableGet b.once eventName).map
          (fun h2 => ({ handler := h2, data := data,
                        fromClient := fromClient } : Invocation)) := hinv
    rcases List.mem_map.mp hmem2 with ⟨h2, _, hi⟩
    rw [← hi]
    exact ⟨rfl, rfl⟩
  · intro hndh h hm
    have hx : (handleIncomingEvent b sessions wsOpen fromClient eventName
        data).1.1.map Invocation.handler =
        tableGet b.persistent eventName ++ tableGet b.once eventName :=
      busDispatch_handlers b eventName data fromClient
    rw [hx]
    exact List.count_eq_one_of_mem hndh hm

/-- Witness for C4_fanout: alice (ws 1) and bob (ws 2) connected and
open; an event from alice reaches bob exactly once. -/
theorem C4_fanout_witness :
    ((handleIncomingEvent { persistent := [], once := [] }
        [{ ws := 1, name := "alice" }, { ws := 2, name := "bob" }]
        (fun _ => true) "alice" "hi" Json.null).2.countP
      (fun p => p.1 == 2)) = 1 :=
  (C4_fanout { persistent := [], once := [] }
      [{ ws := 1, name := "alice" }, { ws := 2, name := "bob" }]
      (fun _ => true) "alice" "hi" Json.null { ws := 2, name := "bob" }
      (by decide) (by decide)).1 (by decide) rfl

/-! ## Claim C5: exactly-once settlement of pending requests -/

theorem settledGet_append_some {l : List (String × Outcome)}
    (l2 : List (String × Outcome)) {id : String} {o : Outcome}
    (h : (l.find? (fun p => p.1 == id)).map (fun p => p.2) = some o) :
    (((l ++ l2).find? (fun p => p.1 == id)).map (fun p => p.2)) = some o := by
  cases hf : l.find? (fun p => p.1 == id) with
  | none => rw [hf] at h; simp at h
  | some p =>
      rw [hf] at h
      rw [List.find?_append, hf]
      simpa using h

theorem settledGet_append_none {l l2 : List (String × Outcome)} {id : String}
    (h1 : l.find? (fun p => p.1 == id) = none)
    (h2 : l2.find? (fun p => p.1 == id) = none) :
    ((l ++ l2).find? (fun p => p.1 == id)) = none := by
  rw [List.find?_append, h1, h2]
  rfl

theorem find?_map_pair {c : Outcome} {id : String} :
    ∀ l : List String, id ∈ l →
      ((l.map (fun j => (j, c))).find? (fun p => p.1 == id)) = some (id, c) := by
  intro l
  induction l with
  | nil => intro h; simp at h
  | cons a t ih =>
      intro h
      by_cases ha : a = id
      · subst ha
        simp [List.find?_cons]
      · have ht : id ∈ t := by
          rcases List.mem_cons.mp h with h1 | h1
          · exact absurd h1.symm ha
          · exact h1
        simpa [List.find?_cons, ha] using ih ht

/-- A settlement, once recorded, is never overwritten by later events. -/
theorem settled_persist (s : PendingState) (ev : PendEvent) (id : String)
    (o : Outcome) (h : settledGet s id = some o) :
    settledGet (stepEvent s ev) id = some o := by
  cases ev with
  | response i success data error =>
      by_cases hi : i ∈ s.pending
      · simp only [stepEvent, if_pos hi, settledGet] at h ⊢
        exact settledGet_append_some _ h
      · simpa [stepEvent, hi] using h
  | timeoutFire i =>
      by_cases hi : i ∈ s.pending
      · simp only [stepEvent, if_pos hi, settledGet] at h ⊢
        exact settledGet_append_some _ h
      · simpa [stepEvent, hi] using h
  | close =>
      simp only [stepEvent, settledGet] at h ⊢
      exact settledGet_append_some _ h

theorem runEvents_settled_persist (evs : List PendEvent) :
    ∀ (s : PendingState) (id : String) (o : Outcome),
      settledGet s id = some o → settledGet (runEvents s evs) id = some o := by
  induction evs with
  | nil => intro s id o h; exact h
  | cons ev rest ih =>
      intro s id o h
      exact ih (stepEvent s ev) id o (settled_persist s ev id o h)

theorem not_pending_step (s : PendingState) (ev : PendEvent) (id : String)
    (h : id ∉ s.pending) : id ∉ (stepEvent s ev).pending := by
  cases ev with
  | response i success data error =>
      by_cases hi : i ∈ s.pending
      · simp only [stepEvent, if_pos hi]
        exact fun hm => h (List.mem_of_mem_erase hm)
      · simpa [stepEvent, hi] using h
  | timeoutFire i =>
      by_cases hi : i ∈ s.pending
      · simp only [stepEvent, if_pos hi]
        exact fun hm => h (List.mem_of_mem_erase hm)
      · simpa [stepEvent, hi] using h
  | close => simp [stepEvent]

theorem runEvents_not_pending (evs : List PendEvent) :
    ∀ (s : PendingState) (id : String),
      id ∉ s.pending → id ∉ (runEvents s evs).pending := by
  induction evs with
  | nil => intro s id h; exact h
  | cons ev rest ih =>
      intro s id h
      exact ih (stepEvent s ev) id (not_pending_step s ev id h)

/-- The first event that targets a pending unsettled id settles it with
that event's outcome and removes the entry. -/
theorem step_targets_settles (s : PendingState) (ev : PendEvent) (id : String)
    (hwf : ∀ i ∈ s.pending, settledGet s i = none)
    (hnd : s.pending.Nodup) (hp : id ∈ s.pending)
    (ht : targets ev id = true) :
    settledGet (stepEvent s ev) id = some (eventOutcome ev) ∧
    id ∉ (stepEvent s ev).pending := by
  have hnone : s.settled.find? (fun p => p.1 == id) = none := by
    have := hwf id hp
    simp only [settledGet] at this
    cases hf : s.settled.find? (fun p => p.1 == id) with
    | none => rfl
    | some p => rw [hf] at this; simp at this
  cases ev with
  | response i success data error =>
      have hi : i = id := by simpa [targets] using ht
      subst hi
      refine ⟨?_, ?_⟩
      · simp only [stepEvent, if_pos hp, settledGet, List.find?_append, hnone,
          Option.none_or]
        simp [List.find?_cons, eventOutcome]
      · simp only [stepEvent, if_pos hp]
        exact hnd.not_mem_erase
  | timeoutFire i =>
      have hi : i = id := by simpa [targets] using ht
      subst hi
      refine ⟨?_, ?_⟩
      · simp only [stepEvent, if_pos hp, settledGet, List.find?_append, hnone,
          Option.none_or]
        simp [List.find?_cons, eventOutcome]
      · simp only [stepEvent, if_pos hp]
        exact hnd.not_mem_erase
  | close =>
      refine ⟨?_, ?_⟩
      · simp only [stepEvent, settledGet, List.find?_append, hnone,
          Option.none_or]
        rw [find?_map_pair s.pending hp]
        simp [eventOutcome]
      · simp [stepEvent]

/-- An event that does not target a pending unsettled id leaves its entry
pending and the state well-formed. -/
theorem step_not_targets (s : PendingState) (ev : PendEvent) (id : String)
    (hwf : ∀ i ∈ s.pending, settledGet s i = none)
    (hnd : s.pending.Nodup) (hp : id ∈ s.pending)
    (ht : targets ev id = false) :
    id ∈ (stepEvent s ev).pending ∧
    (∀ i ∈ (stepEvent s ev).pending, settledGet (stepEvent s ev) i = none) ∧
    (stepEvent s ev).pending.Nodup := by
  cases ev with
  | close => simp [targets] at ht
  | response i success data error =>
      have hne : i ≠ id := by simpa [targets] using ht
      by_cases hi : i ∈ s.pending
      · refine ⟨?_, ?_, ?_⟩
        · simp only [stepEvent, if_pos hi]
          exact (List.mem_erase_of_ne (Ne.symm hne)).mpr hp
        · intro j hj
          simp only [stepEvent, if_pos hi] at hj ⊢
          have hjmem : j ∈ s.pending := List.mem_of_mem_erase hj
          have hji : j ≠ i := by
            intro he
            rw [he] at hj
            exact hnd.not_mem_erase hj
          have h1 : s.settled.find? (fun p => p.1 == j) = none := by
            have := hwf j hjmem
            simp only [settledGet] at this
            cases hf : s.settled.find? (fun p => p.1 == j) with
            | none => rfl
            | some p => rw [hf] at this; simp at this
          simp only [settledGet]
          rw [settledGet_append_none h1 (by simp [List.find?_cons, Ne.symm hji])]
          rfl
        · simp only [stepEvent, if_pos hi]
          exact hnd.erase i
      · simpa [stepEvent, hi] using ⟨hp, hwf, hnd⟩
  | timeoutFire i =>
      have hne : i ≠ id := by simpa [targets] using ht
      by_cases hi : i ∈ s.pending
      · refine ⟨?_, ?_, ?_⟩
        · simp only [stepEvent, if_pos hi]
          exact (List.mem_erase_of_ne (Ne.symm hne)).mpr hp
        · intro j hj
          simp only [stepEvent, if_pos hi] at hj ⊢
          have hjmem : j ∈ s.pending := List.mem_of_mem_erase hj
          have hji : j ≠ i := by
            intro he
            rw [he] at hj
            exact hnd.not_mem_erase hj
          have h1 : s.settled.find? (fun p => p.1 == j) = none := by
            have := hwf j hjmem
            simp only [settledGet] at this
            cases hf : s.settled.find? (fun p => p.1 == j) with
            | none => rfl
            | some p => rw [hf] at this; simp at this
          simp only [settledGet]
          rw [settledGet_append_none h1 (by simp [List.find?_cons, Ne.symm hji])]
          rfl
        · simp only [stepEvent, if_pos hi]
          exact hnd.erase i
      · simpa [stepEvent, hi] using ⟨hp, hwf, hnd⟩

/-- C5: each pending request settles with exactly one terminal outcome —
the first of reply / deadline / close targeting it wins, settles it with
that event's outcome and removes the entry; every later event is a no-op
for it (in particular a reply arriving after the timeout fired), and if
no terminal event occurs the request stays pending and unsettled. -/
theorem C5_settlement (s : PendingState) (id : String) (evs : List PendEvent)
    (hwf : ∀ i ∈ s.pending, settledGet s i = none)
    (hnd : s.pending.Nodup) (hp : id ∈ s.pending) :
    settledGet (runEvents s evs) id =
      (evs.find? (fun ev => targets ev id)).map eventOutcome ∧
    ((evs.find? (fun ev => targets ev id)).isSome →
      id ∉ (runEvents s evs).pending) ∧
    (evs.find? (fun ev => targets ev id) = none →
      id ∈ (runEvents s evs).pending) := by
  induction evs generalizing s with
  | nil =>
      refine ⟨by simpa using hwf id hp, ?_, fun _ => hp⟩
      intro h
      simp at h
  | cons ev rest ih =>
      have hrun : runEvents s (ev :: rest) = runEvents (stepEvent s ev) rest :=
        rfl
      by_cases ht : targets ev id = true
      · have hstep := step_targets_settles s ev id hwf hnd hp ht
        have hfind : (ev :: rest).find? (fun e => targets e id) = some ev := by
          simp [List.find?_cons, ht]
        refine ⟨?_, ?_, ?_⟩
        · rw [hrun, hfind,
            runEvents_settled_persist rest (stepEvent s ev) id
              (eventOutcome ev) hstep.1]
          rfl
        · intro _
          rw [hrun]
          exact runEvents_not_pending rest (stepEvent s ev) id hstep.2
        · intro hnone
          rw [hfind] at hnone
          simp at hnone
      · have htf : targets ev id = false := by
          simpa using ht
        have hstep := step_not_targets s ev id hwf hnd hp htf
        have hfind : (ev :: rest).find? (fun e => targets e id) =
            rest.find? (fun e => targets e id) := by
          simp [List.find?_cons, htf]
        have hrest := ih (stepEvent s ev) hstep.2.1 hstep.2.2 hstep.1
        rw [hrun, hfind]
        exact hrest

/-- Witness for C5_settlement: request "1" is pending; its deadline fires
first, a successful reply arrives later; the recorded outcome is the
timeout and the late reply is a no-op. -/
theorem C5_settlement_witness :
    settledGet
        (runEvents { pending := ["1"], settled := [] }
          [PendEvent.timeoutFire "1",
            PendEvent.response "1" true Json.null none]) "1" =
      some Outcome.timedOut :=
  ((C5_settlement { pending := ["1"], settled := [] } "1"
      [PendEvent.timeoutFire "1", PendEvent.response "1" true Json.null none]
      (by intro i hi; rfl) (by simp) (by simp)).1).trans rfl

end DoggyHole
